import Mathlib

/-!
Verification development for the retrieval core of the
renewal-intelligence NBA repository: a shallow embedding of
src/retrieval/vector_store.py (class VectorStore) together with proofs
of the specified properties of build, save, load and metadata-filtered
nearest-neighbor search.

Modelling choices:
* Embedding vectors are integer-component lists; inner products are
  exact integers (floating point is not load-bearing for any property).
* The sentence-transformer encoder is an abstract parameter of type
  String to vector; encoding a batch maps it over the texts, exactly as
  model.encode does.
* A pandas DataFrame of metadata is a list of rows, each row an
  association list from column name to scalar; the frame's columns are
  the union of the row keys, and fancy-indexing by a boolean mask keeps
  the original row labels, which we model by carrying explicit
  (position, row) pairs.
* A faiss IndexFlatIP is the list of its stored vectors; its search
  ranks all rows by descending inner product (ties by ascending row id,
  the stable order of the exhaustive scan) and pads with label -1 up to
  the requested k, exactly the shape of the (scores, idxs) arrays the
  Python loop consumes.
* The filesystem is a pair of typed path maps (binary index files and
  parquet metadata files live in disjoint formats); save writes both
  paths, load requires both to be present before touching the store.
* search is instrumented with a call-count trace (encoder invocations,
  index searches) so that the no-work-on-empty-subset property is a
  theorem about the function itself.
-/

set_option autoImplicit false

namespace RenewalNBA

/-- A metadata scalar value (string, integer or boolean cell). -/
inductive Scalar where
  | s (v : String)
  | i (v : Int)
  | b (v : Bool)
deriving DecidableEq, Repr

/-- A metadata row: an association list from field name to scalar,
first binding wins on lookup (Python dict semantics). -/
abbrev Row := List (String × Scalar)

/-- Lookup of a field in a row (Python dict access / pandas cell). -/
def rowGet (r : Row) (k : String) : Option Scalar :=
  match r with
  | [] => none
  | (k2, v) :: rest => if k2 = k then some v else rowGet rest k

/-- Python dict item assignment row[k] = v: the binding for k is
replaced (any previous binding removed, new one appended). -/
def rowSet (r : Row) (k : String) (v : Scalar) : Row :=
  (r.filter (fun p => p.1 ≠ k)) ++ [(k, v)]

/-- An embedding vector with exact integer components. -/
abbrev Vec := List Int

/-- An abstract deterministic text encoder (the sentence-transformer
model together with the configured normalization policy). -/
abbrev Enc := String → Vec

deriving instance DecidableEq for Except

/-- Exact inner product of two vectors (faiss IndexFlatIP similarity). -/
def innerProd (a b : Vec) : Int :=
  (List.zipWith (· * ·) a b).sum

/-- One input document: id, text and metadata, as produced by the fact
corpus builder. -/
structure Doc where
  id : String
  text : String
  metadata : Row
deriving DecidableEq, Repr

/-- VectorStoreConfig from vector_store.py: encoder identifier, the two
on-disk file names, and the normalization flag. -/
structure VectorStoreConfig where
  model_name : String
  index_file : String
  meta_file : String
  normalize : Bool
deriving DecidableEq, Repr

/-- The error taxonomy the core raises (RuntimeError on an
uninitialized store or an unsaved save, FileNotFoundError on load). -/
inductive Err where
  | notInitialized
  | notFound
  | nothingToSave
deriving DecidableEq, Repr

/-- In-memory state of a VectorStore: config, base directory, and the
optional index (list of stored vectors) and metadata table. -/
structure VectorStore where
  cfg : VectorStoreConfig
  base_dir : String
  index : Option (List Vec)
  metadata : Option (List Row)
deriving DecidableEq, Repr

/-- VectorStore.__init__: both index and metadata start as None. -/
def VectorStore.mk0 (cfg : VectorStoreConfig) (base_dir : String) : VectorStore :=
  ⟨cfg, base_dir, none, none⟩

/-- The persisted state: binary index files and parquet metadata files,
each a path-keyed association map. -/
structure FS where
  idxFiles : List (String × List Vec)
  metaFiles : List (String × List Row)
deriving DecidableEq, Repr

/-- Association-map lookup by path. -/
def fsGet {α : Type} (files : List (String × α)) (p : String) : Option α :=
  match files with
  | [] => none
  | (p2, v) :: rest => if p2 = p then some v else fsGet rest p

/-- Association-map overwrite-or-insert by path. -/
def fsPut {α : Type} (files : List (String × α)) (p : String) (v : α) : List (String × α) :=
  (p, v) :: files.filter (fun q => q.1 ≠ p)

/-- Path of the index file for a store: base_dir / cfg.index_file. -/
def VectorStore.indexPath (s : VectorStore) : String :=
  s.base_dir ++ "/" ++ s.cfg.index_file

/-- Path of the metadata file for a store: base_dir / cfg.meta_file. -/
def VectorStore.metaPath (s : VectorStore) : String :=
  s.base_dir ++ "/" ++ s.cfg.meta_file

/-- The metadata row built for one document:
d.metadata | (doc_id : d.id), the dict-union with doc_id overriding. -/
def docMeta (d : Doc) : Row :=
  (d.metadata.filter (fun p => p.1 ≠ "doc_id")) ++ [("doc_id", Scalar.s d.id)]

/-- VectorStore.build_from_docs: encode all texts in one batch, build a
fresh index holding the embeddings in document order, and build the
metadata table in the same order with doc_id merged into each row. -/
def VectorStore.build_from_docs (enc : Enc) (s : VectorStore) (docs : List Doc) : VectorStore :=
  let texts := docs.map (fun d => d.text)
  let metas := docs.map docMeta
  let embeddings := texts.map enc
  { s with index := some embeddings, metadata := some metas }

/-- VectorStore.save: fails when index or metadata is None, otherwise
writes the index and the metadata table to their two sibling paths. -/
def VectorStore.save (s : VectorStore) (fs : FS) : Except Err FS :=
  match s.index, s.metadata with
  | some vecs, some md =>
      .ok ⟨fsPut fs.idxFiles s.indexPath vecs, fsPut fs.metaFiles s.metaPath md⟩
  | _, _ => .error .nothingToSave

/-- VectorStore.load: checks that both files exist before assigning
either field; on a missing file it raises FileNotFoundError and the
store is returned unchanged (no partial population). -/
def VectorStore.load (s : VectorStore) (fs : FS) : VectorStore × Option Err :=
  match fsGet fs.idxFiles s.indexPath, fsGet fs.metaFiles s.metaPath with
  | some vecs, some md => ({ s with index := some vecs, metadata := some md }, none)
  | _, _ => (s, some .notFound)

/-- The columns of the metadata DataFrame: the union, in first-seen
order, of the field names of all rows. -/
def columnsOf (md : List Row) : List String :=
  md.foldl (fun acc r => acc ++ (r.map Prod.fst).filter (fun k => ¬ acc.contains k)) []

/-- Rows of the metadata table paired with their original 0-based row
labels (a pandas RangeIndex; boolean-mask filtering keeps labels). -/
def enumRows (md : List Row) : List (Nat × Row) :=
  (List.range md.length).zip md

/-- One pass of the filter loop body: meta = meta[meta[key] == val],
applied only when the key is one of the frame's columns (a missing
column leaves the frame untouched). -/
def applyOneFilter (cols : List String) (acc : List (Nat × Row)) (kv : String × Scalar) : List (Nat × Row) :=
  if cols.contains kv.1 then
    acc.filter (fun pr => rowGet pr.2 kv.1 = some kv.2)
  else acc

/-- The filter prologue of search: when a non-empty filters dict is
given, successively restrict the row set by each key/value pair; a
None or empty dict (falsy in Python) leaves all rows selected. -/
def applyFilters (md : List Row) (filters : Option (List (String × Scalar))) : List (Nat × Row) :=
  match filters with
  | none => enumRows md
  | some fl =>
      if fl.isEmpty then enumRows md
      else fl.foldl (applyOneFilter (columnsOf md)) (enumRows md)

/-- faiss IndexFlatIP.search comparison: candidate a precedes candidate
b when its score is higher, ties broken by ascending row id. -/
def candBefore (a b : Int × Int) : Bool :=
  decide (b.1 < a.1) || (decide (a.1 = b.1) && decide (a.2 ≤ b.2))

/-- Insertion step of the ranking sort. -/
def insertCand (a : Int × Int) : List (Int × Int) → List (Int × Int)
  | [] => [a]
  | b :: rest => if candBefore a b then a :: b :: rest else b :: insertCand a rest

/-- Ranking sort over scored candidates. -/
def sortCands : List (Int × Int) → List (Int × Int)
  | [] => []
  | a :: rest => insertCand a (sortCands rest)

/-- All stored vectors scored against the query: (score, row id). -/
def scoredRows (vecs : List Vec) (q : Vec) : List (Int × Int) :=
  (List.range vecs.length).map (fun i => (innerProd q (vecs.getD i []), (i : Int)))

/-- faiss IndexFlatIP.search(q, k) as the Python loop consumes it: the
list zip(scores[0], idxs[0]) of length exactly k, the stored rows in
descending-score order first, padded with sentinel label -1. -/
def indexSearchPairs (vecs : List Vec) (q : Vec) (k : Nat) : List (Int × Int) :=
  let top := (sortCands (scoredRows vecs q)).take k
  top ++ List.replicate (k - top.length) ((0 : Int), (-1 : Int))

/-- The result row for a surviving candidate:
row = metadata.loc[idx].to_dict(); row["score"] = float(score). -/
def hitRow (md : List Row) (idx : Nat) (score : Int) : Row :=
  rowSet (md.getD idx []) "score" (Scalar.i score)

/-- The candidate loop of search: walk the (score, idx) pairs in order,
skip sentinel labels and rows outside the allowed subset, append the
metadata row with its score, and break once top_k results are held. -/
def searchLoop (md : List Row) (subset : List Nat) (top_k : Nat) :
    List (Int × Int) → List Row → List Row
  | [], acc => acc
  | c :: rest, acc =>
      if c.2 < 0 then searchLoop md subset top_k rest acc
      else if subset.contains c.2.toNat then
        let acc2 := acc ++ [hitRow md c.2.toNat c.1]
        if top_k ≤ acc2.length then acc2 else searchLoop md subset top_k rest acc2
      else searchLoop md subset top_k rest acc

/-- Call-count instrumentation for search: how many times the encoder
and the index search were invoked. -/
structure Trace where
  encodeCalls : Nat
  indexSearchCalls : Nat
deriving DecidableEq, Repr

/-- VectorStore.search, instrumented: raises when the store is not
initialized; restricts the metadata by the filters; returns [] at once
when the restriction is empty (encoder and index untouched); otherwise
encodes the query, over-fetches top_k * 5 candidates from the full
index and masks them through the loop. -/
def VectorStore.searchT (enc : Enc) (s : VectorStore) (query : String) (top_k : Nat)
    (filters : Option (List (String × Scalar))) : Except Err (List Row) × Trace :=
  match s.index, s.metadata with
  | some vecs, some md =>
      let meta := applyFilters md filters
      if meta.isEmpty then (.ok [], ⟨0, 0⟩)
      else
        let subset := meta.map Prod.fst
        let q := enc query
        let cands := indexSearchPairs vecs q (top_k * 5)
        (.ok (searchLoop md subset top_k cands []), ⟨1, 1⟩)
  | _, _ => (.error .notInitialized, ⟨0, 0⟩)

/-- VectorStore.search itself: the value, trace dropped. -/
def VectorStore.search (enc : Enc) (s : VectorStore) (query : String) (top_k : Nat)
    (filters : Option (List (String × Scalar))) : Except Err (List Row) :=
  (s.searchT enc query top_k filters).1

/-- A candidate survives the loop when its label is not the sentinel
and its row position belongs to the allowed subset. -/
def keepCand (subset : List Nat) (c : Int × Int) : Bool :=
  decide (0 ≤ c.2) && subset.contains c.2.toNat

/-- The surviving candidates of a candidate list, turned into result
rows, in candidate (ranked) order. -/
def keptRows (md : List Row) (subset : List Nat) (cands : List (Int × Int)) : List Row :=
  (cands.filter (keepCand subset)).map (fun c => hitRow md c.2.toNat c.1)

/-- The search algorithm as the spec describes it: request exactly
top_k * 5 ranked candidates, keep those that are not sentinels and lie
in the filtered subset, turn each into its metadata row plus score, and
truncate to the first top_k. -/
def searchSpecResult (md : List Row) (vecs : List Vec) (q : Vec)
    (subset : List Nat) (top_k : Nat) : List Row :=
  (keptRows md subset (indexSearchPairs vecs q (top_k * 5))).take top_k

/- ------------------------- helper lemmas ------------------------- -/

theorem keptRows_nil (md : List Row) (subset : List Nat) :
    keptRows md subset [] = [] := rfl

theorem keptRows_cons (md : List Row) (subset : List Nat) (c : Int × Int)
    (rest : List (Int × Int)) :
    keptRows md subset (c :: rest) =
      if keepCand subset c then hitRow md c.2.toNat c.1 :: keptRows md subset rest
      else keptRows md subset rest := by
  by_cases h : keepCand subset c = true
  · simp [keptRows, List.filter_cons, h]
  · simp [keptRows, List.filter_cons, h]

/-- The candidate loop with its break is the filter-map of the
survivors truncated to what is still missing from the accumulator. -/
theorem searchLoop_eq (md : List Row) (subset : List Nat) (k : Nat) :
    ∀ (cands : List (Int × Int)) (acc : List Row), acc.length < k →
      searchLoop md subset k cands acc =
        acc ++ (keptRows md subset cands).take (k - acc.length) := by
  intro cands
  induction cands with
  | nil => intro acc _; simp [searchLoop, keptRows_nil]
  | cons c rest ih =>
    intro acc hacc
    by_cases h1 : c.2 < 0
    · have hk : keepCand subset c = false := by
        have : decide (0 ≤ c.2) = false := by
          simp only [decide_eq_false_iff_not]; omega
        simp [keepCand, this]
      simp only [searchLoop, if_pos h1]
      rw [ih acc hacc, keptRows_cons, hk]
      simp
    · by_cases h2 : subset.contains c.2.toNat
      · have hk : keepCand subset c = true := by
          have h0 : decide (0 ≤ c.2) = true := by
            simp only [decide_eq_true_eq]; omega
          simp only [keepCand, h0, h2, Bool.and_self]
        simp only [searchLoop, if_neg h1, if_pos h2]
        by_cases h3 : k ≤ (acc ++ [hitRow md c.2.toNat c.1]).length
        · simp only [if_pos h3]
          have hlen : (acc ++ [hitRow md c.2.toNat c.1]).length = acc.length + 1 := by
            simp
          have hk1 : k - acc.length = 1 := by omega
          rw [keptRows_cons, hk, hk1]
          simp
        · simp only [if_neg h3]
          have hlen : (acc ++ [hitRow md c.2.toNat c.1]).length = acc.length + 1 := by
            simp
          have hacc2 : (acc ++ [hitRow md c.2.toNat c.1]).length < k := by omega
          rw [ih _ hacc2, keptRows_cons, hk, hlen]
          have hsucc : k - acc.length = (k - (acc.length + 1)) + 1 := by omega
          rw [hsucc]
          simp [List.take_succ_cons]
      · simp only [searchLoop, if_neg h1, if_neg h2]
        have hk : keepCand subset c = false := by
          have hc : subset.contains c.2.toNat = false :=
            Bool.of_not_eq_true h2
          simp only [keepCand, hc, Bool.and_false]
        rw [ih acc hacc, keptRows_cons, hk]
        simp

/-- The candidate arrays returned by the index search have length
exactly the requested k, sentinel-padded when the index is smaller. -/
theorem indexSearchPairs_length (vecs : List Vec) (q : Vec) (k : Nat) :
    (indexSearchPairs vecs q k).length = k := by
  simp only [indexSearchPairs, List.length_append, List.length_replicate]
  have := List.length_take_le k (sortCands (scoredRows vecs q))
  omega

/-- The searchT success branch, characterized: when the store is
initialized and the filtered subset is non-empty, the result is the
spec-side filter-map-take of exactly top_k * 5 ranked candidates, and
the encoder and index are each consulted once. -/
theorem searchT_characterization (enc : Enc) (s : VectorStore) (query : String)
    (top_k : Nat) (filters : Option (List (String × Scalar)))
    (vecs : List Vec) (md : List Row)
    (hv : s.index = some vecs) (hm : s.metadata = some md)
    (hne : applyFilters md filters ≠ []) :
    s.searchT enc query top_k filters =
      (.ok (searchSpecResult md vecs (enc query)
              ((applyFilters md filters).map Prod.fst) top_k), ⟨1, 1⟩) := by
  have hne2 : (applyFilters md filters).isEmpty = false := by
    simpa [List.isEmpty_iff] using hne
  rcases Nat.eq_zero_or_pos top_k with hk | hk
  · subst hk
    have hcands : indexSearchPairs vecs (enc query) (0 * 5) = [] := by
      have := indexSearchPairs_length vecs (enc query) (0 * 5)
      simpa [List.length_eq_zero] using this
    simp [VectorStore.searchT, hv, hm, hne2, searchSpecResult, hcands,
      keptRows_nil, searchLoop]
  · have hloop := searchLoop_eq md ((applyFilters md filters).map Prod.fst) top_k
      (indexSearchPairs vecs (enc query) (top_k * 5)) [] (by simpa using hk)
    simp only [VectorStore.searchT, hv, hm, hne2, Bool.false_eq_true, if_false]
    rw [hloop]
    simp [searchSpecResult]

/-- searchT reads nothing of the store beyond its index and metadata
fields. -/
theorem searchT_only_fields (enc : Enc) (q : String) (k : Nat)
    (filters : Option (List (String × Scalar))) (s1 s2 : VectorStore)
    (hv : s1.index = s2.index) (hm : s1.metadata = s2.metadata) :
    s1.searchT enc q k filters = s2.searchT enc q k filters := by
  unfold VectorStore.searchT
  rw [hv, hm]

/-- Writing a path and reading it back yields the written value. -/
theorem fsGet_fsPut_self {α : Type} (files : List (String × α)) (p : String) (v : α) :
    fsGet (fsPut files p v) p = some v := by
  simp [fsGet, fsPut]

/-- With an empty allowed subset no candidate survives. -/
theorem keptRows_empty_subset (md : List Row) (cands : List (Int × Int)) :
    keptRows md [] cands = [] := by
  induction cands with
  | nil => rfl
  | cons c rest ih =>
      rw [keptRows_cons]
      have : keepCand [] c = false := by
        simp [keepCand, List.contains]
      rw [this]
      simpa using ih

/- ------------------------- concrete fixtures ------------------------- -/

/-- A deterministic encoder for the six-document fixture: each text is
sent to a one-dimensional vector chosen so the ranking is transparent;
every query text encodes to the unit vector. -/
def encB : Enc := fun t =>
  if t = "t0" then [10] else if t = "t1" then [9] else if t = "t2" then [8]
  else if t = "t3" then [7] else if t = "t4" then [6] else if t = "t5" then [1]
  else [1]

/-- Six documents: five in category 0, one in category 1, ranked by
encB in document order against any query. -/
def docs6 : List Doc :=
  [⟨"d0", "t0", [("cat", .i 0)]⟩, ⟨"d1", "t1", [("cat", .i 0)]⟩,
   ⟨"d2", "t2", [("cat", .i 0)]⟩, ⟨"d3", "t3", [("cat", .i 0)]⟩,
   ⟨"d4", "t4", [("cat", .i 0)]⟩, ⟨"d5", "t5", [("cat", .i 1)]⟩]

/-- The fixture configuration (default file names of VectorStoreConfig). -/
def cfgA : VectorStoreConfig :=
  ⟨"sentence-transformers/all-MiniLM-L6-v2", "faiss_index.bin", "metadata.parquet", true⟩

/-- A freshly constructed (uninitialized) store. -/
def store0 : VectorStore := VectorStore.mk0 cfgA "base"

/-- The fixture store built from the six documents. -/
def store6 : VectorStore := store0.build_from_docs encB docs6

/-- The metadata table of the fixture store. -/
def md6 : List Row := docs6.map docMeta

/-- The stored vectors of the fixture store. -/
def vecs6 : List Vec := (docs6.map (fun d => d.text)).map encB

/-- A persisted pair whose index holds two vectors while the metadata
table holds a single row: a size-inconsistent (corrupt) pair. -/
def fsMismatch : FS :=
  ⟨[("base/faiss_index.bin", [[1], [2]])],
   [("base/metadata.parquet", [[("a", Scalar.i 0)]])]⟩

/-- A filesystem holding only the metadata file of the fixture store. -/
def fsMetaOnly : FS :=
  ⟨[], [("base/metadata.parquet", [[("a", Scalar.i 0)]])]⟩

/- ------------------------- claims ------------------------- -/

/-- Claim C1, counterexample: load does not compare the persisted index
size with the metadata row count. On a persisted pair holding two
vectors but a single metadata row, load succeeds (no error) and
establishes the mismatched state, instead of failing with a corruption
error as the claim requires. -/
theorem claim_C1_counterexample :
    (store0.load fsMismatch).2 = none ∧
    ((store0.load fsMismatch).1.index.getD []).length = 2 ∧
    ((store0.load fsMismatch).1.metadata.getD []).length = 1 :=
  ⟨rfl, rfl, rfl⟩

/-- Claim C1 (amended): after a successful build_from_docs the index
size equals the metadata row count, and a load of the files written by
save of that built store (same config and base directory) succeeds and
re-establishes the equality. load itself performs no consistency check:
it succeeds whenever both files exist, whatever their sizes. -/
theorem claim_C1_size_invariant (enc : Enc) (s t : VectorStore) (docs : List Doc)
    (fs fs2 : FS)
    (hsave : (s.build_from_docs enc docs).save fs = .ok fs2)
    (hcfg : t.cfg = s.cfg) (hdir : t.base_dir = s.base_dir) :
    ((s.build_from_docs enc docs).index.getD []).length =
      ((s.build_from_docs enc docs).metadata.getD []).length ∧
    (t.load fs2).2 = none ∧
    ((t.load fs2).1.index.getD []).length = ((t.load fs2).1.metadata.getD []).length := by
  have hbuild : ((s.build_from_docs enc docs).index.getD []).length =
      ((s.build_from_docs enc docs).metadata.getD []).length := by
    simp [VectorStore.build_from_docs]
  refine ⟨hbuild, ?_⟩
  have hfs2 : fs2 = ⟨fsPut fs.idxFiles (s.build_from_docs enc docs).indexPath
        ((docs.map (fun d => d.text)).map enc),
      fsPut fs.metaFiles (s.build_from_docs enc docs).metaPath (docs.map docMeta)⟩ := by
    have := hsave
    simp only [VectorStore.save, VectorStore.build_from_docs] at this
    exact (Except.ok.inj this).symm
  have hip : t.indexPath = (s.build_from_docs enc docs).indexPath := by
    simp [VectorStore.indexPath, VectorStore.build_from_docs, hcfg, hdir]
  have hmp : t.metaPath = (s.build_from_docs enc docs).metaPath := by
    simp [VectorStore.metaPath, VectorStore.build_from_docs, hcfg, hdir]
  have hload : t.load fs2 =
      ({ t with index := some ((docs.map (fun d => d.text)).map enc),
                metadata := some (docs.map docMeta) }, none) := by
    rw [hfs2]
    unfold VectorStore.load
    rw [hip, hmp]
    simp [fsGet_fsPut_self]
  rw [hload]
  simp

/-- Witness for claim C1: the amended invariant at the six-document
fixture, saved into an empty filesystem and reloaded by a fresh store. -/
theorem claim_C1_witness :
    ((store0.build_from_docs encB docs6).index.getD []).length =
      ((store0.build_from_docs encB docs6).metadata.getD []).length ∧
    ((VectorStore.mk0 cfgA "base").load
        ((store0.build_from_docs encB docs6).save ⟨[], []⟩ |>.toOption.getD ⟨[], []⟩)).2 = none ∧
    (((VectorStore.mk0 cfgA "base").load
        ((store0.build_from_docs encB docs6).save ⟨[], []⟩ |>.toOption.getD ⟨[], []⟩)).1.index.getD []).length =
      (((VectorStore.mk0 cfgA "base").load
        ((store0.build_from_docs encB docs6).save ⟨[], []⟩ |>.toOption.getD ⟨[], []⟩)).1.metadata.getD []).length :=
  claim_C1_size_invariant encB store0 (VectorStore.mk0 cfgA "base") docs6 ⟨[], []⟩ _ rfl rfl rfl

/-- Claim C4: when the filters select zero metadata rows, search on an
initialized store returns the empty sequence at once, for every encoder
whatsoever, with zero encoder invocations and zero index searches. -/
theorem claim_C4_empty_subset (s : VectorStore) (q : String) (k : Nat)
    (filters : Option (List (String × Scalar))) (vecs : List Vec) (md : List Row)
    (hv : s.index = some vecs) (hm : s.metadata = some md)
    (hempty : applyFilters md filters = []) :
    ∀ enc : Enc, s.searchT enc q k filters = (.ok [], ⟨0, 0⟩) := by
  intro enc
  simp [VectorStore.searchT, hv, hm, hempty]

/-- Witness for claim C4: filtering the fixture on cat = 2 selects no
row; search returns [] untraced. -/
theorem claim_C4_witness :
    store6.searchT encB "q" 5 (some [("cat", Scalar.i 2)]) = (.ok [], ⟨0, 0⟩) :=
  claim_C4_empty_subset store6 "q" 5 (some [("cat", Scalar.i 2)]) vecs6 md6 rfl rfl
    (by decide) encB

/-- Claim C7: search on a store on which neither build_from_docs nor
load has completed (index or metadata still None) surfaces the
not-initialized error to the caller. -/
theorem claim_C7_not_initialized (enc : Enc) (s : VectorStore) (q : String) (k : Nat)
    (filters : Option (List (String × Scalar)))
    (h : s.index = none ∨ s.metadata = none) :
    s.search enc q k filters = .error .notInitialized := by
  rcases h with h | h
  · simp [VectorStore.search, VectorStore.searchT, h]
  · cases hv : s.index <;>
      simp [VectorStore.search, VectorStore.searchT, h, hv]

/-- Witness for claim C7: a freshly constructed store raises. -/
theorem claim_C7_witness :
    store0.search encB "q" 5 none = .error .notInitialized :=
  claim_C7_not_initialized encB store0 "q" 5 none (Or.inl rfl)

/-- Claim C8: load with the index file or the metadata file absent
fails with the not-found error and leaves the store exactly as it was:
no partial population of the in-memory fields. -/
theorem claim_C8_load_missing (s : VectorStore) (fs : FS)
    (h : fsGet fs.idxFiles s.indexPath = none ∨ fsGet fs.metaFiles s.metaPath = none) :
    s.load fs = (s, some .notFound) := by
  rcases h with h | h
  · simp [VectorStore.load, h]
  · cases h1 : fsGet fs.idxFiles s.indexPath <;>
      simp [VectorStore.load, h, h1]

/-- Witness for claim C8: the spec scenario itself — only the metadata
file present — fails with not-found and the store is unchanged. -/
theorem claim_C8_witness :
    store0.load fsMetaOnly = (store0, some .notFound) :=
  claim_C8_load_missing store0 fsMetaOnly (Or.inl rfl)

/-- Claim C2: on an initialized store with a non-empty filtered subset,
search asks the index for exactly top_k * 5 ranked candidates, and its
result is precisely the ranked candidate walk the claim describes:
drop the sentinel-labelled and out-of-subset candidates, turn each
survivor into its metadata row plus score, and truncate to the first
top_k (collection stops at top_k or at exhaustion). -/
theorem claim_C2_search_algorithm (enc : Enc) (s : VectorStore) (query : String)
    (top_k : Nat) (filters : Option (List (String × Scalar)))
    (vecs : List Vec) (md : List Row)
    (hv : s.index = some vecs) (hm : s.metadata = some md)
    (hne : applyFilters md filters ≠ []) :
    (indexSearchPairs vecs (enc query) (top_k * 5)).length = top_k * 5 ∧
    s.search enc query top_k filters =
      .ok ((keptRows md ((applyFilters md filters).map Prod.fst)
            (indexSearchPairs vecs (enc query) (top_k * 5))).take top_k) := by
  refine ⟨indexSearchPairs_length _ _ _, ?_⟩
  unfold VectorStore.search
  rw [searchT_characterization enc s query top_k filters vecs md hv hm hne]
  rfl

/-- Witness for claim C2: the characterization at the six-document
fixture with top_k = 2 and no filters. -/
theorem claim_C2_witness :
    (indexSearchPairs vecs6 (encB "q") (2 * 5)).length = 2 * 5 ∧
    store6.search encB "q" 2 none =
      .ok ((keptRows md6 ((applyFilters md6 none).map Prod.fst)
            (indexSearchPairs vecs6 (encB "q") (2 * 5))).take 2) :=
  claim_C2_search_algorithm encB store6 "q" 2 none vecs6 md6 rfl rfl (by decide)

/-- Claim C3, counterexample: six documents, five of category 0 ranked
above the single category-1 document. With top_k = 1 and the filter
cat = 1 the filtered pool holds exactly one row — not fewer than
top_k — yet search returns zero results, because the over-fetched
window of top_k * 5 = 5 candidates contains no filtered row. -/
theorem claim_C3_counterexample :
    store6.search encB "q" 1 (some [("cat", Scalar.i 1)]) = .ok [] ∧
    (applyFilters md6 (some [("cat", Scalar.i 1)])).length = 1 := by
  constructor <;> decide

/-- Claim C3 (amended): search with top_k = k never returns more than
k results, and returns fewer than k only if fewer than k candidates of
the k * 5 over-fetched ranked candidates survive the subset filter —
in particular when the filtered pool is smaller than k, but also when
enough filtered rows fall outside the over-fetch window. -/
theorem claim_C3_topk_bound (enc : Enc) (s : VectorStore) (q : String) (k : Nat)
    (filters : Option (List (String × Scalar))) (vecs : List Vec) (md : List Row)
    (hv : s.index = some vecs) (hm : s.metadata = some md)
    (res : List Row) (hres : s.search enc q k filters = .ok res) :
    res.length ≤ k ∧
    (res.length < k →
      (keptRows md ((applyFilters md filters).map Prod.fst)
        (indexSearchPairs vecs (enc q) (k * 5))).length < k) := by
  by_cases hne : applyFilters md filters = []
  · have hsearch : s.search enc q k filters = .ok [] := by
      simp [VectorStore.search, VectorStore.searchT, hv, hm, hne]
    have hres2 : ([] : List Row) = res := Except.ok.inj (hsearch.symm.trans hres)
    subst hres2
    refine ⟨by simp, ?_⟩
    intro hk
    rw [hne]
    simpa [keptRows_empty_subset] using hk
  · have hchar : s.search enc q k filters =
        .ok (searchSpecResult md vecs (enc q)
              ((applyFilters md filters).map Prod.fst) k) := by
      unfold VectorStore.search
      rw [searchT_characterization enc s q k filters vecs md hv hm hne]
    have hres2 : searchSpecResult md vecs (enc q)
        ((applyFilters md filters).map Prod.fst) k = res :=
      Except.ok.inj (hchar.symm.trans hres)
    subst hres2
    unfold searchSpecResult
    have hlen := List.length_take k
      (keptRows md ((applyFilters md filters).map Prod.fst)
        (indexSearchPairs vecs (enc q) (k * 5)))
    constructor
    · omega
    · intro hlt
      omega

/-- Witness for claim C3: the bound at the fixture store, top_k = 1,
filter cat = 1 (zero results, zero surviving candidates). -/
theorem claim_C3_witness :
    ([] : List Row).length ≤ 1 ∧
    (([] : List Row).length < 1 →
      (keptRows md6 ((applyFilters md6 (some [("cat", Scalar.i 1)])).map Prod.fst)
        (indexSearchPairs vecs6 (encB "q") (1 * 5))).length < 1) :=
  claim_C3_topk_bound encB store6 "q" 1 (some [("cat", Scalar.i 1)]) vecs6 md6
    rfl rfl [] (by decide)

/-- Claim C5, counterexample: filtering the fixture on the field zzz —
which exists on no row — does not yield an empty result: the filter
entry is skipped and search returns the unfiltered top hit. -/
theorem claim_C5_counterexample :
    store6.search encB "q" 1 (some [("zzz", Scalar.i 1)]) =
      .ok [[("cat", Scalar.i 0), ("doc_id", Scalar.s "d0"), ("score", Scalar.i 10)]] ∧
    store6.search encB "q" 1 (some [("zzz", Scalar.i 1)]) ≠ .ok [] := by
  constructor <;> decide

/-- Skipping every filter entry leaves the accumulated row set as it
was. -/
theorem foldl_applyOneFilter_skip (cols : List String) (fl : List (String × Scalar)) :
    ∀ acc : List (Nat × Row), (∀ kv ∈ fl, cols.contains kv.1 = false) →
      fl.foldl (applyOneFilter cols) acc = acc := by
  induction fl with
  | nil => intro acc _; rfl
  | cons kv rest ih =>
      intro acc h
      have hkv : cols.contains kv.1 = false := h kv (by simp)
      simp only [List.foldl_cons, applyOneFilter, hkv, Bool.false_eq_true, if_false]
      exact ih acc (fun x hx => h x (by simp [hx]))

/-- A filters dict whose keys are all unknown columns selects the same
rows as no filters. -/
theorem applyFilters_unknown_cols (md : List Row) (fl : List (String × Scalar))
    (h : ∀ kv ∈ fl, (columnsOf md).contains kv.1 = false) :
    applyFilters md (some fl) = applyFilters md none := by
  unfold applyFilters
  by_cases he : fl.isEmpty
  · simp [he]
  · simp only [he, Bool.false_eq_true, if_false]
    exact foldl_applyOneFilter_skip (columnsOf md) fl (enumRows md) h

/-- Claim C5 (amended): a filters mapping all of whose keys name fields
existing on no row (unknown columns) is skipped entirely: search
behaves exactly as with no filters at all — same result, same trace —
and in particular returns a result, not an error, on an initialized
store. -/
theorem claim_C5_unknown_field (enc : Enc) (s : VectorStore) (q : String) (k : Nat)
    (fl : List (String × Scalar)) (vecs : List Vec) (md : List Row)
    (hv : s.index = some vecs) (hm : s.metadata = some md)
    (h : ∀ kv ∈ fl, (columnsOf md).contains kv.1 = false) :
    s.searchT enc q k (some fl) = s.searchT enc q k none ∧
    ∃ res, s.search enc q k (some fl) = .ok res := by
  have heq : s.searchT enc q k (some fl) = s.searchT enc q k none := by
    simp only [VectorStore.searchT, hv, hm]
    rw [applyFilters_unknown_cols md fl h]
  refine ⟨heq, ?_⟩
  unfold VectorStore.search
  rw [heq]
  simp only [VectorStore.searchT, hv, hm]
  by_cases hq : (applyFilters md none).isEmpty
  · exact ⟨[], by simp [hq]⟩
  · refine ⟨searchLoop md ((applyFilters md none).map Prod.fst) k
        (indexSearchPairs vecs (enc q) (k * 5)) [], ?_⟩
    simp only [hq, Bool.false_eq_true, if_false]

/-- Witness for claim C5: the unknown field zzz on the fixture. -/
theorem claim_C5_witness :
    store6.searchT encB "q" 1 (some [("zzz", Scalar.i 1)]) =
      store6.searchT encB "q" 1 none ∧
    ∃ res, store6.search encB "q" 1 (some [("zzz", Scalar.i 1)]) = .ok res :=
  claim_C5_unknown_field encB store6 "q" 1 [("zzz", Scalar.i 1)] vecs6 md6 rfl rfl
    (by decide)

/-- Claim C6: save then load into a fresh store with the same config
and base directory succeeds and yields identical search results for
any fixed encoder, query, top_k and filters (scores are exact values
here, so identical means equal). -/
theorem claim_C6_roundtrip (enc : Enc) (s t : VectorStore) (vecs : List Vec)
    (md : List Row) (fs fs2 : FS) (q : String) (k : Nat)
    (filters : Option (List (String × Scalar)))
    (hv : s.index = some vecs) (hm : s.metadata = some md)
    (hsave : s.save fs = .ok fs2)
    (hcfg : t.cfg = s.cfg) (hdir : t.base_dir = s.base_dir) :
    (t.load fs2).2 = none ∧
    ((t.load fs2).1).search enc q k filters = s.search enc q k filters := by
  have hfs2 : fs2 = ⟨fsPut fs.idxFiles s.indexPath vecs, fsPut fs.metaFiles s.metaPath md⟩ := by
    have h := hsave
    simp only [VectorStore.save, hv, hm] at h
    exact (Except.ok.inj h).symm
  have hip : t.indexPath = s.indexPath := by
    simp [VectorStore.indexPath, hcfg, hdir]
  have hmp : t.metaPath = s.metaPath := by
    simp [VectorStore.metaPath, hcfg, hdir]
  have hload : t.load fs2 =
      ({ t with index := some vecs, metadata := some md }, none) := by
    rw [hfs2]
    unfold VectorStore.load
    rw [hip, hmp]
    simp [fsGet_fsPut_self]
  rw [hload]
  refine ⟨rfl, ?_⟩
  unfold VectorStore.search
  rw [searchT_only_fields enc q k filters _ s (by simp [hv]) (by simp [hm])]

/-- The filesystem state written by saving the fixture store into an
empty filesystem. -/
def fs6 : FS :=
  ⟨fsPut [] store6.indexPath vecs6, fsPut [] store6.metaPath md6⟩

/-- Witness for claim C6: round trip of the fixture store through an
empty filesystem into a fresh store. -/
theorem claim_C6_witness :
    ((VectorStore.mk0 cfgA "base").load fs6).2 = none ∧
    (((VectorStore.mk0 cfgA "base").load fs6).1).search encB "q" 2 none =
      store6.search encB "q" 2 none :=
  claim_C6_roundtrip encB store6 (VectorStore.mk0 cfgA "base") vecs6 md6
    ⟨[], []⟩ fs6 "q" 2 none rfl rfl rfl rfl rfl

/-- Lookup distributes over append: the left list is consulted first. -/
theorem rowGet_append (l1 l2 : Row) (k : String) :
    rowGet (l1 ++ l2) k =
      match rowGet l1 k with
      | some v => some v
      | none => rowGet l2 k := by
  induction l1 with
  | nil => simp [rowGet]
  | cons p rest ih =>
      obtain ⟨k2, v2⟩ := p
      by_cases hp : k2 = k
      · simp [rowGet, hp]
      · simp [rowGet, hp, ih]

/-- Removing every binding of a key makes its lookup fail. -/
theorem rowGet_filter_self (r : Row) (k : String) :
    rowGet (r.filter (fun p => p.1 ≠ k)) k = none := by
  induction r with
  | nil => rfl
  | cons p rest ih =>
      obtain ⟨k2, v2⟩ := p
      by_cases hp : k2 = k
      · simpa [List.filter_cons, hp] using ih
      · simpa [List.filter_cons, hp, rowGet] using ih

/-- Removing every binding of one key leaves lookups of other keys
untouched. -/
theorem rowGet_filter_other (r : Row) (k k2 : String) (h : k2 ≠ k) :
    rowGet (r.filter (fun p => p.1 ≠ k)) k2 = rowGet r k2 := by
  induction r with
  | nil => rfl
  | cons p rest ih =>
      obtain ⟨k3, v3⟩ := p
      rw [List.filter_cons]
      by_cases hp : k3 = k
      · rw [if_neg (by simp [hp])]
        rw [ih]
        have hne : ¬ k3 = k2 := by rw [hp]; exact fun hc => h hc.symm
        simp [rowGet, hne]
      · rw [if_pos (by simp [hp])]
        by_cases hq : k3 = k2
        · simp [rowGet, hq]
        · simpa [rowGet, hq] using ih

/-- Assigning a key makes its lookup return the assigned value. -/
theorem rowGet_rowSet_self (r : Row) (k : String) (v : Scalar) :
    rowGet (rowSet r k v) k = some v := by
  unfold rowSet
  rw [rowGet_append, rowGet_filter_self]
  simp [rowGet]

/-- Assigning a key leaves lookups of other keys untouched. -/
theorem rowGet_rowSet_other (r : Row) (k k2 : String) (v : Scalar) (h : k2 ≠ k) :
    rowGet (rowSet r k v) k2 = rowGet r k2 := by
  unfold rowSet
  rw [rowGet_append, rowGet_filter_other r k k2 h]
  cases hr : rowGet r k2 with
  | some w => rfl
  | none =>
      have hne : ¬ k = k2 := fun hc => h hc.symm
      simp [rowGet, hne]

/-- The merged metadata row of a document holds its document id. -/
theorem docMeta_doc_id (d : Doc) :
    rowGet (docMeta d) "doc_id" = some (Scalar.s d.id) :=
  rowGet_rowSet_self d.metadata "doc_id" (Scalar.s d.id)

/-- Insertion into the ranking keeps membership. -/
theorem mem_insertCand (a c : Int × Int) (l : List (Int × Int))
    (h : a ∈ insertCand c l) : a = c ∨ a ∈ l := by
  induction l with
  | nil =>
      simp only [insertCand, List.mem_singleton] at h
      exact Or.inl h
  | cons b rest ih =>
      simp only [insertCand] at h
      by_cases hb : candBefore c b
      · rw [if_pos hb] at h
        rcases List.mem_cons.mp h with h | h
        · exact Or.inl h
        · exact Or.inr h
      · rw [if_neg hb] at h
        rcases List.mem_cons.mp h with h | h
        · exact Or.inr (by simp [h])
        · rcases ih h with h | h
          · exact Or.inl h
          · exact Or.inr (List.mem_cons_of_mem _ h)

/-- The ranking sort keeps membership. -/
theorem mem_sortCands (a : Int × Int) (l : List (Int × Int))
    (h : a ∈ sortCands l) : a ∈ l := by
  induction l with
  | nil => simp [sortCands] at h
  | cons c rest ih =>
      rcases mem_insertCand a c (sortCands rest) h with h2 | h2
      · simp [h2]
      · exact List.mem_cons_of_mem _ (ih h2)

/-- Scored candidates carry a row id below the index size. -/
theorem mem_scoredRows (c : Int × Int) (vecs : List Vec) (q : Vec)
    (h : c ∈ scoredRows vecs q) : 0 ≤ c.2 ∧ c.2.toNat < vecs.length := by
  simp only [scoredRows, List.mem_map, List.mem_range] at h
  obtain ⟨i, hi, rfl⟩ := h
  constructor
  · simp
  · simpa using hi

/-- A non-sentinel candidate of an index search names a stored row. -/
theorem indexSearchPairs_mem_lt (vecs : List Vec) (q : Vec) (K : Nat) (c : Int × Int)
    (hc : c ∈ indexSearchPairs vecs q K) (h0 : 0 ≤ c.2) :
    c.2.toNat < vecs.length := by
  simp only [indexSearchPairs, List.mem_append] at hc
  rcases hc with hc | hc
  · exact (mem_scoredRows c vecs q (mem_sortCands c _ (List.mem_of_mem_take hc))).2
  · have hpad := List.eq_of_mem_replicate hc
    rw [hpad] at h0
    exact absurd h0 (by decide)

/-- Every row of the surviving-candidate list comes from a kept
candidate. -/
theorem mem_keptRows (md : List Row) (subset : List Nat) (cands : List (Int × Int))
    (r : Row) (h : r ∈ keptRows md subset cands) :
    ∃ c ∈ cands, keepCand subset c = true ∧ r = hitRow md c.2.toNat c.1 := by
  simp only [keptRows, List.mem_map, List.mem_filter] at h
  obtain ⟨c, ⟨hc, hk⟩, rfl⟩ := h
  exact ⟨c, hc, hk, rfl⟩

/-- getD through map, inside the list. -/
theorem getD_map_docMeta (docs : List Doc) (i : Nat) (h : i < docs.length) :
    (docs.map docMeta).getD i [] = docMeta (docs.getD i ⟨"", "", []⟩) := by
  rw [List.getD_eq_getElem?_getD, List.getD_eq_getElem?_getD, List.getElem?_map]
  rw [List.getElem?_eq_getElem h]
  rfl

/-- Claim C9, counterexample: the per-hit score field is named score,
not similarity_score; a result record of the fixture store has no
similarity_score field at all. -/
theorem claim_C9_counterexample :
    store6.search encB "q" 1 none =
      .ok [[("cat", Scalar.i 0), ("doc_id", Scalar.s "d0"), ("score", Scalar.i 10)]] ∧
    rowGet [("cat", Scalar.i 0), ("doc_id", Scalar.s "d0"), ("score", Scalar.i 10)]
      "similarity_score" = none ∧
    rowGet [("cat", Scalar.i 0), ("doc_id", Scalar.s "d0"), ("score", Scalar.i 10)]
      "score" = some (Scalar.i 10) := by
  refine ⟨?_, ?_, ?_⟩ <;> decide

/-- Claim C9 (amended): every record returned by search on a built
store is the metadata row of some indexed document — all its original
metadata fields, the document id included, still look up to their
values — together with the hit's similarity score stored under the
field name score (not similarity_score). -/
theorem claim_C9_result_shape (enc : Enc) (s0 : VectorStore) (docs : List Doc)
    (q : String) (k : Nat) (filters : Option (List (String × Scalar))) (res : List Row)
    (hres : (s0.build_from_docs enc docs).search enc q k filters = .ok res) :
    ∀ r ∈ res, ∃ i score, i < docs.length ∧
      r = hitRow (docs.map docMeta) i score ∧
      rowGet r "score" = some (Scalar.i score) ∧
      rowGet r "doc_id" = some (Scalar.s ((docs.getD i ⟨"", "", []⟩).id)) ∧
      (∀ key v, key ≠ "score" → rowGet ((docs.map docMeta).getD i []) key = some v →
        rowGet r key = some v) := by
  have hv : (s0.build_from_docs enc docs).index =
      some ((docs.map (fun d => d.text)).map enc) := rfl
  have hm : (s0.build_from_docs enc docs).metadata = some (docs.map docMeta) := rfl
  by_cases hne : applyFilters (docs.map docMeta) filters = []
  · have hsearch : (s0.build_from_docs enc docs).search enc q k filters = .ok [] := by
      simp [VectorStore.search, VectorStore.searchT, hv, hm, hne]
    have h0 : ([] : List Row) = res := Except.ok.inj (hsearch.symm.trans hres)
    subst h0
    intro r hr
    exact absurd hr (List.not_mem_nil r)
  · have hchar : (s0.build_from_docs enc docs).search enc q k filters =
        .ok (searchSpecResult (docs.map docMeta) ((docs.map (fun d => d.text)).map enc)
              (enc q) ((applyFilters (docs.map docMeta) filters).map Prod.fst) k) := by
      unfold VectorStore.search
      rw [searchT_characterization enc _ q k filters _ _ hv hm hne]
    have h0 := Except.ok.inj (hchar.symm.trans hres)
    subst h0
    intro r hr
    unfold searchSpecResult at hr
    obtain ⟨c, hc, hkeep, rfl⟩ :=
      mem_keptRows _ _ _ r (List.mem_of_mem_take hr)
    have h0c : 0 ≤ c.2 ∧ c.2.toNat ∈ (applyFilters (docs.map docMeta) filters).map Prod.fst := by
      simpa [keepCand] using hkeep
    have hlt : c.2.toNat < ((docs.map (fun d => d.text)).map enc).length :=
      indexSearchPairs_mem_lt _ _ _ c hc h0c.1
    have hlen : c.2.toNat < docs.length := by simpa using hlt
    refine ⟨c.2.toNat, c.1, hlen, rfl, ?_, ?_, ?_⟩
    · exact rowGet_rowSet_self _ _ _
    · show rowGet (rowSet ((docs.map docMeta).getD c.2.toNat []) "score" (Scalar.i c.1))
        "doc_id" = _
      rw [rowGet_rowSet_other _ _ _ _ (by decide)]
      rw [getD_map_docMeta docs c.2.toNat hlen]
      exact docMeta_doc_id _
    · intro key v hkey hget
      show rowGet (rowSet ((docs.map docMeta).getD c.2.toNat []) "score" (Scalar.i c.1))
        key = some v
      rw [rowGet_rowSet_other _ _ _ _ hkey]
      exact hget

/-- Witness for claim C9: the shape statement at the fixture store with
top_k = 1 and no filters, applied to its single result record (the top
hit). -/
theorem claim_C9_witness :
    ∃ i score, i < docs6.length ∧
      [("cat", Scalar.i 0), ("doc_id", Scalar.s "d0"), ("score", Scalar.i 10)] =
        hitRow (docs6.map docMeta) i score ∧
      rowGet [("cat", Scalar.i 0), ("doc_id", Scalar.s "d0"), ("score", Scalar.i 10)]
        "score" = some (Scalar.i score) ∧
      rowGet [("cat", Scalar.i 0), ("doc_id", Scalar.s "d0"), ("score", Scalar.i 10)]
        "doc_id" = some (Scalar.s ((docs6.getD i ⟨"", "", []⟩).id)) ∧
      (∀ key v, key ≠ "score" → rowGet ((docs6.map docMeta).getD i []) key = some v →
        rowGet [("cat", Scalar.i 0), ("doc_id", Scalar.s "d0"), ("score", Scalar.i 10)]
          key = some v) :=
  claim_C9_result_shape encB store0 docs6 "q" 1 none
    [[("cat", Scalar.i 0), ("doc_id", Scalar.s "d0"), ("score", Scalar.i 10)]]
    (by decide)
    [("cat", Scalar.i 0), ("doc_id", Scalar.s "d0"), ("score", Scalar.i 10)]
    (List.mem_singleton.mpr rfl)

/-- Claim C10: an empty filters mapping is falsy and is treated exactly
like passing no filters: same result and same trace, on any store,
initialized or not; in particular it never triggers the early
empty-subset return on a non-empty table. -/
theorem claim_C10_empty_filters (enc : Enc) (s : VectorStore) (q : String) (k : Nat) :
    s.searchT enc q k (some []) = s.searchT enc q k none := by
  unfold VectorStore.searchT
  cases s.index <;> cases s.metadata <;> simp [applyFilters]

end RenewalNBA
